import Mathlib

/-!
# Verification of the LibreLink glucose analytics engine

A shallow embedding of `src/glucose-analytics.ts` (class `GlucoseAnalytics`)
together with the data model of `src/types.ts`.

Modelling choices:
* JavaScript `number` is embedded as `ℚ` (exact arithmetic; the analytics code
  performs only `+ - * /`, `Math.pow(_, 2)`, `Math.sqrt` and `Math.round`).
* `Math.sqrt` returns an irrational number on most rationals, so it is embedded
  as an explicit function parameter `sqrt : ℚ → ℚ`; every theorem below is
  proved for an arbitrary model of `sqrt` (adding hypotheses such as
  `sqrt 0 = 0` only where a concrete square root value matters).
* `Math.round x` is `⌊x + 1/2⌋` (round half towards +∞), which agrees with
  JavaScript on all the non-negative values produced here.
* A thrown `Error` is an `Except.error` carrying the message string.
* A JS `Date` is observed by the analytics code only through `getHours()`
  (the local hour of day), so it is embedded as that single observation.
* Division in `ℚ` totalises `x / 0` as `0`, which does not match IEEE
  semantics; the one place where the source can divide by zero (the
  coefficient-of-variation line) is additionally modelled by
  `coefficientOfVariationJs` with explicit IEEE `NaN`/`Infinity` results.
-/

namespace LibreLink

/-- JS `Date`, seen by the analytics engine only through `getHours()`. -/
structure Date where
  getHours : Nat
deriving DecidableEq

/-- `TrendType` from `src/types.ts`. -/
inductive TrendType where
  | flat
  | fortyFiveUp
  | singleUp
  | doubleUp
  | fortyFiveDown
  | singleDown
  | doubleDown
deriving DecidableEq

/-- `GlucoseReading` from `src/types.ts`. -/
structure GlucoseReading where
  value : ℚ
  timestamp : Date
  trend : TrendType
  isHigh : Bool
  isLow : Bool
  color : String
deriving DecidableEq

/-- The `ranges` part of `LibreLinkConfig` from `src/types.ts`. -/
structure TargetRanges where
  target_low : ℚ
  target_high : ℚ
deriving DecidableEq

/-- `LibreLinkConfig` from `src/types.ts`, restricted to the one field the
analytics engine reads (`credentials`, `client` and `cache` are never touched
by `GlucoseAnalytics`). -/
structure LibreLinkConfig where
  ranges : TargetRanges
deriving DecidableEq

/-- `GlucoseStats` from `src/types.ts`. -/
structure GlucoseStats where
  average : ℚ
  gmi : ℚ
  timeInRange : ℚ
  timeBelowRange : ℚ
  timeAboveRange : ℚ
  standardDeviation : ℚ
  coefficientOfVariation : ℚ
deriving DecidableEq

/-- `TrendAnalysis` from `src/types.ts`. -/
structure TrendAnalysis where
  patterns : List String
  dawnPhenomenon : Bool
  mealResponse : ℚ
  overnightStability : ℚ
deriving DecidableEq

/-- The `period` argument of `analyzeTrends` (`'daily' | 'weekly' | 'monthly'`). -/
inductive Period where
  | daily
  | weekly
  | monthly
deriving DecidableEq

/-- `Math.round(q * 100) / 100`: rounding to two decimals, as applied by the
source at every output boundary. `Math.round x = ⌊x + 1/2⌋`. -/
def round2 (q : ℚ) : ℚ := (⌊q * 100 + 1 / 2⌋ : ℤ) / 100

/-- `readings.map(r => r.value)`. -/
def values (readings : List GlucoseReading) : List ℚ :=
  readings.map (fun r => r.value)

/-- Arithmetic mean of a list, `sum / length` (the source inlines this formula
both in `calculateGlucoseStats` and in `calculateOvernightStability`). -/
def meanOf (l : List ℚ) : ℚ := l.sum / (l.length : ℚ)

/-- Population variance of a list, `Σ (v - mean)² / length` (again inlined
twice by the source, with `Math.pow(val - average, 2)`). -/
def popVariance (l : List ℚ) : ℚ :=
  (l.map (fun v => (v - meanOf l) ^ 2)).sum / (l.length : ℚ)

/-- `const average = total / values.length` of `calculateGlucoseStats`. -/
def averageOf (readings : List GlucoseReading) : ℚ := meanOf (values readings)

/-- `const variance = ... / values.length` of `calculateGlucoseStats`. -/
def varianceOf (readings : List GlucoseReading) : ℚ := popVariance (values readings)

/-- `const standardDeviation = Math.sqrt(variance)`. -/
def standardDeviationOf (sqrt : ℚ → ℚ) (readings : List GlucoseReading) : ℚ :=
  sqrt (varianceOf readings)

/-- `const coefficientOfVariation = (standardDeviation / average) * 100`.
In `ℚ` the division is total with `x / 0 = 0`; the IEEE behaviour of this
line at `average = 0` is modelled separately by `coefficientOfVariationJs`. -/
def coefficientOfVariationOf (sqrt : ℚ → ℚ) (readings : List GlucoseReading) : ℚ :=
  standardDeviationOf sqrt readings / averageOf readings * 100

/-- `const gmi = 3.31 + (0.02392 * average)`. -/
def gmiOf (readings : List GlucoseReading) : ℚ :=
  3.31 + 0.02392 * averageOf readings

/-- `readings.filter(r => r.value >= target_low && r.value <= target_high).length`. -/
def inRangeCount (cfg : LibreLinkConfig) (readings : List GlucoseReading) : ℕ :=
  (readings.filter (fun r =>
    decide (cfg.ranges.target_low ≤ r.value ∧ r.value ≤ cfg.ranges.target_high))).length

/-- `readings.filter(r => r.value < target_low).length`. -/
def belowRangeCount (cfg : LibreLinkConfig) (readings : List GlucoseReading) : ℕ :=
  (readings.filter (fun r => decide (r.value < cfg.ranges.target_low))).length

/-- `readings.filter(r => r.value > target_high).length`. -/
def aboveRangeCount (cfg : LibreLinkConfig) (readings : List GlucoseReading) : ℕ :=
  (readings.filter (fun r => decide (cfg.ranges.target_high < r.value))).length

/-- The `GlucoseStats` object returned by `calculateGlucoseStats` on a
non-empty input (every field rounded to two decimals at the boundary). -/
def statsRecord (sqrt : ℚ → ℚ) (cfg : LibreLinkConfig)
    (readings : List GlucoseReading) : GlucoseStats :=
  { average := round2 (averageOf readings)
    gmi := round2 (gmiOf readings)
    timeInRange := round2 ((inRangeCount cfg readings : ℚ) / (readings.length : ℚ) * 100)
    timeBelowRange := round2 ((belowRangeCount cfg readings : ℚ) / (readings.length : ℚ) * 100)
    timeAboveRange := round2 ((aboveRangeCount cfg readings : ℚ) / (readings.length : ℚ) * 100)
    standardDeviation := round2 (standardDeviationOf sqrt readings)
    coefficientOfVariation := round2 (coefficientOfVariationOf sqrt readings) }

/-- `calculateGlucoseStats`: throws on an empty input, otherwise returns the
stats record. -/
def calculateGlucoseStats (sqrt : ℚ → ℚ) (cfg : LibreLinkConfig)
    (readings : List GlucoseReading) : Except String GlucoseStats :=
  if readings.isEmpty then .error "No glucose readings provided for analysis"
  else .ok (statsRecord sqrt cfg readings)

/-- The values recorded for one hour bucket of `detectDawnPhenomenon`
(the source groups by `timestamp.getHours()` into a `Map`; grouping and then
looking a bucket up is the same as filtering by that hour). -/
def hourValues (readings : List GlucoseReading) (hour : ℕ) : List ℚ :=
  values (readings.filter (fun r => r.timestamp.getHours == hour))

/-- `hourlyAverages.get(h) || 0`: the mean of the bucket, `0` if the hour has
no readings (a present bucket always has at least one value; `|| 0` also maps
a present mean of `0` to `0`, which coincides with the branch below). -/
def hourlyAverage (readings : List GlucoseReading) (hour : ℕ) : ℚ :=
  let vs := hourValues readings hour
  if vs.isEmpty then 0 else meanOf vs

/-- `detectDawnPhenomenon`: `(dawn8AM - dawn4AM) > 20 || (dawn6AM - dawn4AM) > 15`. -/
def detectDawnPhenomenon (readings : List GlucoseReading) : Bool :=
  decide (hourlyAverage readings 8 - hourlyAverage readings 4 > 20) ||
  decide (hourlyAverage readings 6 - hourlyAverage readings 4 > 15)

/-- The spike contributions collected by the `for` loop of
`calculateMealResponse`: for every window `(prev, curr, next)` of three
consecutive values, if `curr > prev + 30 && curr > next + 15` the loop adds
`curr - prev` to `totalSpikes` and bumps `spikeCount`. -/
def spikes : List ℚ → List ℚ
  | a :: b :: c :: rest =>
      (if b > a + 30 ∧ b > c + 15 then [b - a] else []) ++ spikes (b :: c :: rest)
  | _ => []

/-- `calculateMealResponse`: `spikeCount > 0 ? totalSpikes / spikeCount : 0`. -/
def calculateMealResponse (readings : List GlucoseReading) : ℚ :=
  let s := spikes (values readings)
  if s.isEmpty then 0 else s.sum / (s.length : ℚ)

/-- `readings.filter(r => hour >= 23 || hour <= 6)` of `calculateOvernightStability`. -/
def overnightValues (readings : List GlucoseReading) : List ℚ :=
  values (readings.filter (fun r =>
    decide (23 ≤ r.timestamp.getHours) || decide (r.timestamp.getHours ≤ 6)))

/-- `calculateOvernightStability`: `0` when fewer than two overnight readings,
otherwise the population standard deviation of the overnight values. -/
def calculateOvernightStability (sqrt : ℚ → ℚ) (readings : List GlucoseReading) : ℚ :=
  let vs := overnightValues readings
  if vs.length < 2 then 0 else sqrt (popVariance vs)

/-- One step of the `forEach` loop of `detectHypoglycemicEpisodes`, acting on
the state `(episodes, inEpisode)`. -/
def hypoStep (low : ℚ) (acc : ℕ × Bool) (r : GlucoseReading) : ℕ × Bool :=
  if r.value < low then
    (if acc.2 then acc else (acc.1 + 1, true))
  else if r.value > low + 10 then (acc.1, false)
  else acc

/-- `detectHypoglycemicEpisodes`. -/
def detectHypoglycemicEpisodes (cfg : LibreLinkConfig)
    (readings : List GlucoseReading) : ℕ :=
  (readings.foldl (hypoStep cfg.ranges.target_low) (0, false)).1

/-- One step of the `forEach` loop of `detectHyperglycemicPeriods`, acting on
the state `(periods, consecutiveHigh)`. -/
def hyperStep (high : ℚ) (acc : ℕ × ℕ) (r : GlucoseReading) : ℕ × ℕ :=
  if r.value > high then (acc.1, acc.2 + 1)
  else (if acc.2 ≥ 6 then acc.1 + 1 else acc.1, 0)

/-- `detectHyperglycemicPeriods`, including the trailing
`if (consecutiveHigh >= 6) periods++` after the loop. -/
def detectHyperglycemicPeriods (cfg : LibreLinkConfig)
    (readings : List GlucoseReading) : ℕ :=
  let acc := readings.foldl (hyperStep cfg.ranges.target_high) (0, 0)
  if acc.2 ≥ 6 then acc.1 + 1 else acc.1

/-- The `TrendAnalysis` object returned by `analyzeTrends` on a non-empty
input: the pattern strings are pushed in the fixed source order. -/
def trendRecord (sqrt : ℚ → ℚ) (cfg : LibreLinkConfig)
    (readings : List GlucoseReading) : TrendAnalysis :=
  let dawnPhenomenon := detectDawnPhenomenon readings
  let mealResponse := calculateMealResponse readings
  let overnightStability := calculateOvernightStability sqrt readings
  let hypoEpisodes := detectHypoglycemicEpisodes cfg readings
  let hyperPeriods := detectHyperglycemicPeriods cfg readings
  { patterns :=
      (if dawnPhenomenon then
        ["Dawn phenomenon detected - glucose rises in early morning hours"] else []) ++
      (if mealResponse > 50 then ["High postprandial glucose response detected"]
       else if mealResponse < 20 then ["Good postprandial glucose control"] else []) ++
      (if overnightStability < 10 then ["Excellent overnight glucose stability"]
       else if overnightStability > 30 then ["High overnight glucose variability"] else []) ++
      (if hypoEpisodes > 0 then
        [toString hypoEpisodes ++ " hypoglycemic episode(s) detected"] else []) ++
      (if hyperPeriods > 0 then
        [toString hyperPeriods ++ " extended hyperglycemic period(s) detected"] else [])
    dawnPhenomenon := dawnPhenomenon
    mealResponse := round2 mealResponse
    overnightStability := round2 overnightStability }

/-- `analyzeTrends`: throws on an empty input; the `period` argument is
accepted and then never read (exactly as in the source). -/
def analyzeTrends (sqrt : ℚ → ℚ) (cfg : LibreLinkConfig)
    (readings : List GlucoseReading) (_period : Period) : Except String TrendAnalysis :=
  if readings.isEmpty then .error "No glucose readings provided for trend analysis"
  else .ok (trendRecord sqrt cfg readings)

/-- `generateInsights`: computes stats and trends (the trends object is built
but never read afterwards, as in the source, where `analyzeTrends` is called
with its default `'weekly'` period), then pushes exactly three sentences. -/
def generateInsights (sqrt : ℚ → ℚ) (cfg : LibreLinkConfig)
    (readings : List GlucoseReading) : Except String (List String) :=
  match calculateGlucoseStats sqrt cfg readings with
  | .error e => .error e
  | .ok stats =>
    match analyzeTrends sqrt cfg readings .weekly with
    | .error e => .error e
    | .ok _trends =>
      .ok [(if stats.timeInRange ≥ 70 then
              "Excellent glucose control - time in range above 70%"
            else if stats.timeInRange ≥ 50 then
              "Good glucose control - consider optimizing to reach 70% time in range"
            else
              "Glucose control needs improvement - focus on reducing time above/below range"),
           (if stats.coefficientOfVariation ≤ 33 then
              "Low glucose variability - excellent stability"
            else if stats.coefficientOfVariation ≤ 36 then
              "Moderate glucose variability - room for improvement"
            else
              "High glucose variability - consider strategies to improve stability"),
           (if stats.gmi < 7 then
              "GMI indicates excellent glucose management"
            else if stats.gmi < 8 then
              "GMI indicates good glucose management with room for improvement"
            else
              "GMI suggests glucose management needs significant improvement")]

/-- An IEEE double as far as the one fallible division of the source is
concerned: a finite (rational) value, an infinity, or `NaN`. -/
inductive JsNum where
  | num : ℚ → JsNum
  | posInf : JsNum
  | negInf : JsNum
  | nan : JsNum
deriving DecidableEq

/-- IEEE division of finite doubles: finite quotient when the divisor is
non-zero, `±Infinity` for `x / 0` with `x ≠ 0`, `NaN` for `0 / 0`. -/
def jsDiv (a b : ℚ) : JsNum :=
  if b ≠ 0 then .num (a / b)
  else if 0 < a then .posInf
  else if a < 0 then .negInf
  else .nan

/-- The coefficient-of-variation line with IEEE semantics:
`(standardDeviation / average) * 100`, where multiplying by the positive
finite constant `100` leaves `±Infinity` and `NaN` unchanged. -/
def coefficientOfVariationJs (sqrt : ℚ → ℚ) (readings : List GlucoseReading) : JsNum :=
  match jsDiv (standardDeviationOf sqrt readings) (averageOf readings) with
  | .num q => .num (q * 100)
  | x => x

/-- The lengths of the maximal runs of `true` in a flag sequence, given the
length of the run currently open; boundaries between adjacent runs contribute
explicit `0` entries.  `runLengths flags 0` lists (a superset containing) the
lengths of all maximal `true`-runs of `flags`. -/
def runLengths : List Bool → ℕ → List ℕ
  | [], c => [c]
  | true :: bs, c => runLengths bs (c + 1)
  | false :: bs, c => c :: runLengths bs 0

/-- Which readings are above the target range, in sequence order. -/
def aboveFlags (cfg : LibreLinkConfig) (readings : List GlucoseReading) : List Bool :=
  readings.map (fun r => decide (cfg.ranges.target_high < r.value))

/-- A reading carrying only the data the analytics engine looks at
(`value` and the hour of day); all other fields are fixed defaults. -/
def mkReading (v : ℚ) (hour : ℕ) : GlucoseReading :=
  { value := v
    timestamp := ⟨hour⟩
    trend := TrendType.flat
    isHigh := false
    isLow := false
    color := "" }

/-- The default target range of `src/config.ts` (`target_low: 70`,
`target_high: 180`). -/
def cfg70 : LibreLinkConfig := { ranges := { target_low := 70, target_high := 180 } }

/-! ## Helper lemmas -/

lemma calculateGlucoseStats_of_ne_nil (sqrt : ℚ → ℚ) (cfg : LibreLinkConfig)
    (readings : List GlucoseReading) (hne : readings ≠ []) :
    calculateGlucoseStats sqrt cfg readings = .ok (statsRecord sqrt cfg readings) := by
  simp [calculateGlucoseStats, hne]

lemma analyzeTrends_of_ne_nil (sqrt : ℚ → ℚ) (cfg : LibreLinkConfig)
    (readings : List GlucoseReading) (hne : readings ≠ []) (p : Period) :
    analyzeTrends sqrt cfg readings p = .ok (trendRecord sqrt cfg readings) := by
  simp [analyzeTrends, hne]

/-- Rounding to two decimals moves a value by at most `1/200`. -/
lemma round2_sub_abs_le (q : ℚ) : |round2 q - q| ≤ 1 / 200 := by
  have h1 : ((⌊q * 100 + 1 / 2⌋ : ℤ) : ℚ) ≤ q * 100 + 1 / 2 := Int.floor_le _
  have h2 : q * 100 + 1 / 2 < (⌊q * 100 + 1 / 2⌋ : ℤ) + 1 := Int.lt_floor_add_one _
  rw [round2, abs_le]
  constructor <;> linarith

/-- For `low < high` the three range classifications used by
`calculateGlucoseStats` partition the readings exactly. -/
lemma counts_partition (cfg : LibreLinkConfig) (readings : List GlucoseReading)
    (hlh : cfg.ranges.target_low < cfg.ranges.target_high) :
    inRangeCount cfg readings + belowRangeCount cfg readings +
      aboveRangeCount cfg readings = readings.length := by
  induction readings with
  | nil => simp [inRangeCount, belowRangeCount, aboveRangeCount]
  | cons r rest ih =>
    simp only [inRangeCount, belowRangeCount, aboveRangeCount, List.filter_cons,
      List.length_cons] at ih ⊢
    by_cases h1 : r.value < cfg.ranges.target_low
    · have h2 : ¬(cfg.ranges.target_low ≤ r.value ∧ r.value ≤ cfg.ranges.target_high) := by
        rintro ⟨h, -⟩; exact absurd h1 (not_lt.mpr h)
      have h3 : ¬(cfg.ranges.target_high < r.value) := by linarith
      simp [h1, h2, h3] at ih ⊢
      omega
    · by_cases h4 : r.value ≤ cfg.ranges.target_high
      · have h2 : cfg.ranges.target_low ≤ r.value := not_lt.mp h1
        have h3 : ¬(cfg.ranges.target_high < r.value) := not_lt.mpr h4
        simp [h1, h2, h3, h4] at ih ⊢
        omega
      · have h2 : ¬(cfg.ranges.target_low ≤ r.value ∧ r.value ≤ cfg.ranges.target_high) := by
          rintro ⟨-, h⟩; exact h4 h
        have h3 : cfg.ranges.target_high < r.value := not_le.mp h4
        simp [h1, h2, h3] at ih ⊢
        omega

/-! ## Claims -/

/-- **C1.** For every non-empty list of readings and every target range with
`low < high`, the three percentage fields returned by `calculateGlucoseStats`
(`timeInRange`, `timeBelowRange`, `timeAboveRange`) sum to `100` within a
`0.1` tolerance: the classifications `value < low`, `low ≤ value ≤ high` and
`value > high` partition the readings exactly, so the percentages sum to
exactly `100` before the two-decimal rounding and each rounding moves its
field by at most `1/200`. -/
theorem stats_time_percentages_sum_within_tolerance
    (sqrt : ℚ → ℚ) (cfg : LibreLinkConfig) (readings : List GlucoseReading)
    (hlh : cfg.ranges.target_low < cfg.ranges.target_high) (hne : readings ≠ [])
    (s : GlucoseStats) (hs : calculateGlucoseStats sqrt cfg readings = .ok s) :
    |s.timeInRange + s.timeBelowRange + s.timeAboveRange - 100| ≤ 1 / 10 := by
  rw [calculateGlucoseStats_of_ne_nil sqrt cfg readings hne] at hs
  have hrec : statsRecord sqrt cfg readings = s := Except.ok.inj hs
  subst hrec
  simp only [statsRecord]
  have hNne : ((readings.length : ℚ)) ≠ 0 := by
    have : readings.length ≠ 0 := fun h => hne (List.length_eq_zero.mp h)
    exact_mod_cast this
  have hcnt : inRangeCount cfg readings + belowRangeCount cfg readings +
      aboveRangeCount cfg readings = readings.length := counts_partition cfg readings hlh
  set a : ℚ := (inRangeCount cfg readings : ℚ) / (readings.length : ℚ) * 100 with ha
  set b : ℚ := (belowRangeCount cfg readings : ℚ) / (readings.length : ℚ) * 100 with hb
  set c : ℚ := (aboveRangeCount cfg readings : ℚ) / (readings.length : ℚ) * 100 with hc
  have habc : a + b + c = 100 := by
    have h : (inRangeCount cfg readings : ℚ) + (belowRangeCount cfg readings : ℚ) +
        (aboveRangeCount cfg readings : ℚ) = (readings.length : ℚ) := by
      exact_mod_cast hcnt
    rw [ha, hb, hc]
    field_simp
    linarith
  have h1 := round2_sub_abs_le a
  have h2 := round2_sub_abs_le b
  have h3 := round2_sub_abs_le c
  rw [abs_le] at h1 h2 h3 ⊢
  constructor <;> linarith

/-- **C2.** `calculateGlucoseStats` and `analyzeTrends` both fail on an empty
readings list, with the source's two error messages; neither returns a
defaulted result object for empty input (the `Except` value is an error, not
an `ok`). -/
theorem empty_readings_raise_error (sqrt : ℚ → ℚ) (cfg : LibreLinkConfig) (p : Period) :
    calculateGlucoseStats sqrt cfg [] =
      .error "No glucose readings provided for analysis" ∧
    analyzeTrends sqrt cfg [] p =
      .error "No glucose readings provided for trend analysis" :=
  ⟨rfl, rfl⟩

/-- **C1 witness**: the tolerance bound instantiated at the default range and
a concrete three-reading list (one below, one in, one above range). -/
theorem stats_time_percentages_sum_witness :
    cfg70.ranges.target_low < cfg70.ranges.target_high ∧
    ([mkReading 40 0, mkReading 400 1, mkReading 100 2] : List GlucoseReading) ≠ [] ∧
    |(statsRecord (fun _ => 0) cfg70 [mkReading 40 0, mkReading 400 1, mkReading 100 2]).timeInRange +
      (statsRecord (fun _ => 0) cfg70 [mkReading 40 0, mkReading 400 1, mkReading 100 2]).timeBelowRange +
      (statsRecord (fun _ => 0) cfg70 [mkReading 40 0, mkReading 400 1, mkReading 100 2]).timeAboveRange
      - 100| ≤ 1 / 10 :=
  ⟨by norm_num [cfg70], by simp,
    stats_time_percentages_sum_within_tolerance (fun _ => 0) cfg70
      [mkReading 40 0, mkReading 400 1, mkReading 100 2]
      (by norm_num [cfg70]) (by simp) _
      (calculateGlucoseStats_of_ne_nil (fun _ => 0) cfg70
        [mkReading 40 0, mkReading 400 1, mkReading 100 2] (by simp))⟩

/-- **C3.** For every non-empty readings list and every model of `Math.sqrt`
with `sqrt 0 = 0`, the stats object returned by `calculateGlucoseStats` has
`average` the (two-decimal-rounded) arithmetic mean of the values,
`standardDeviation` the rounded square root of the population variance
(`Σ (v - mean)² / N`, dividing by `N` and not `N - 1`), and `gmi` the rounded
`3.31 + 0.02392 * mean`; in particular a single reading of value `100` with
the default `[70, 180]` range yields `average = 100`,
`standardDeviation = 0`, `coefficientOfVariation = 0` and `gmi = 5.70`. -/
theorem stats_mean_std_gmi (sqrt : ℚ → ℚ) (cfg : LibreLinkConfig)
    (readings : List GlucoseReading) (hne : readings ≠ []) (h0 : sqrt 0 = 0) :
    (∀ s, calculateGlucoseStats sqrt cfg readings = .ok s →
      s.average = round2 ((values readings).sum / ((values readings).length : ℚ)) ∧
      s.standardDeviation =
        round2 (sqrt (((values readings).map
          (fun v => (v - meanOf (values readings)) ^ 2)).sum /
            ((values readings).length : ℚ))) ∧
      s.gmi = round2 (3.31 + 0.02392 *
        ((values readings).sum / ((values readings).length : ℚ)))) ∧
    calculateGlucoseStats sqrt cfg70 [mkReading 100 12] = .ok
      { average := 100, gmi := 5.7, timeInRange := 100, timeBelowRange := 0,
        timeAboveRange := 0, standardDeviation := 0, coefficientOfVariation := 0 } := by
  constructor
  · intro s hs
    rw [calculateGlucoseStats_of_ne_nil sqrt cfg readings hne] at hs
    have hrec : statsRecord sqrt cfg readings = s := Except.ok.inj hs
    subst hrec
    refine ⟨rfl, ?_, rfl⟩
    simp only [statsRecord, standardDeviationOf, varianceOf, popVariance, averageOf]
  · have hv : varianceOf [mkReading 100 12] = 0 := by
      simp [varianceOf, popVariance, meanOf, values, mkReading]
    simp only [calculateGlucoseStats, statsRecord, standardDeviationOf,
      coefficientOfVariationOf, hv, h0]
    simp [averageOf, gmiOf, meanOf, values, mkReading, inRangeCount,
          belowRangeCount, aboveRangeCount, cfg70, round2]
    norm_num

/-- **C3 witness**: the formulas instantiated at a concrete two-reading list
and the zero model of `sqrt` (which is exact at the only point it is applied
to in the conclusion's closed part). -/
theorem stats_mean_std_gmi_witness :
    ([mkReading 80 0, mkReading 120 1] : List GlucoseReading) ≠ [] ∧
    (fun _ : ℚ => (0 : ℚ)) 0 = 0 ∧
    calculateGlucoseStats (fun _ => 0) cfg70 [mkReading 100 12] = .ok
      { average := 100, gmi := 5.7, timeInRange := 100, timeBelowRange := 0,
        timeAboveRange := 0, standardDeviation := 0, coefficientOfVariation := 0 } :=
  ⟨by simp, rfl,
    (stats_mean_std_gmi (fun _ => 0) cfg70 [mkReading 80 0, mkReading 120 1]
      (by simp) rfl).2⟩

/-- **C4 counterexample.** The claim says `calculateGlucoseStats` handles a
zero mean explicitly (failing or returning `0` for the coefficient of
variation, never a silent `NaN`).  On the single reading `{value: 0}` the mean
is `0`, the call still succeeds, and the IEEE evaluation of the source line
`(standardDeviation / average) * 100` is `0 / 0 = NaN`: the edge is not
handled.  (`fun _ => 0` is a faithful model of `Math.sqrt` here: it is only
applied to the variance `0`, and `Math.sqrt(0) = 0`.) -/
theorem cv_zero_mean_counterexample :
    averageOf [mkReading 0 0] = 0 ∧
    coefficientOfVariationJs (fun _ => 0) [mkReading 0 0] = JsNum.nan ∧
    JsNum.nan ≠ JsNum.num 0 ∧
    calculateGlucoseStats (fun _ => 0) cfg70 [mkReading 0 0] =
      .ok (statsRecord (fun _ => 0) cfg70 [mkReading 0 0]) := by
  refine ⟨?_, ?_, by simp, by simp [calculateGlucoseStats]⟩
  · simp [averageOf, meanOf, values, mkReading]
  · simp [coefficientOfVariationJs, jsDiv, standardDeviationOf, averageOf,
      meanOf, values, mkReading]

/-- **C4 (amended).** For every readings list whose mean is non-zero the
coefficient of variation equals `100 * standardDeviation / average`; when the
mean is zero the code does **not** handle the edge: it performs the division
anyway, and under IEEE semantics the result is never a finite number (it is
`NaN` when the standard deviation is also `0`, `±Infinity` otherwise) — in
particular it is neither an error nor `0`. -/
theorem cv_formula_and_zero_mean_edge (sqrt : ℚ → ℚ)
    (readings : List GlucoseReading) :
    (averageOf readings ≠ 0 →
      coefficientOfVariationOf sqrt readings =
        100 * standardDeviationOf sqrt readings / averageOf readings) ∧
    (averageOf readings = 0 →
      ∀ q : ℚ, coefficientOfVariationJs sqrt readings ≠ JsNum.num q) := by
  constructor
  · intro _
    rw [coefficientOfVariationOf]
    ring
  · intro h q
    rw [coefficientOfVariationJs, h]
    rw [jsDiv]
    split_ifs <;> simp_all

/-- **C4 witness**: the formula at a non-zero-mean input, and the
never-finite edge at a zero-mean input. -/
theorem cv_formula_and_zero_mean_edge_witness :
    averageOf [mkReading 100 12] ≠ 0 ∧
    coefficientOfVariationOf (fun _ => 0) [mkReading 100 12] =
      100 * standardDeviationOf (fun _ => 0) [mkReading 100 12] /
        averageOf [mkReading 100 12] ∧
    averageOf [mkReading 0 0] = 0 ∧
    coefficientOfVariationJs (fun _ => 0) [mkReading 0 0] ≠ JsNum.num 0 := by
  have h1 : averageOf [mkReading 100 12] ≠ 0 := by
    simp [averageOf, meanOf, values, mkReading]
  have h2 : averageOf [mkReading 0 0] = 0 := by
    simp [averageOf, meanOf, values, mkReading]
  exact ⟨h1,
    (cv_formula_and_zero_mean_edge (fun _ => 0) [mkReading 100 12]).1 h1,
    h2,
    (cv_formula_and_zero_mean_edge (fun _ => 0) [mkReading 0 0]).2 h2 0⟩

/-- **C5.** For every non-empty readings list and any two periods among
`daily`, `weekly`, `monthly`, `analyzeTrends` returns the same `TrendAnalysis`
for both: the `period` argument has no influence on any field of the result
(it is accepted and then never read). -/
theorem period_argument_no_effect (sqrt : ℚ → ℚ) (cfg : LibreLinkConfig)
    (readings : List GlucoseReading) (_hne : readings ≠ []) (p1 p2 : Period) :
    analyzeTrends sqrt cfg readings p1 = analyzeTrends sqrt cfg readings p2 := rfl

/-- **C5 witness**: `daily` versus `monthly` on a concrete reading list. -/
theorem period_argument_no_effect_witness :
    ([mkReading 100 12] : List GlucoseReading) ≠ [] ∧
    analyzeTrends (fun _ => 0) cfg70 [mkReading 100 12] Period.daily =
      analyzeTrends (fun _ => 0) cfg70 [mkReading 100 12] Period.monthly :=
  ⟨by simp,
    period_argument_no_effect (fun _ => 0) cfg70 [mkReading 100 12] (by simp)
      Period.daily Period.monthly⟩

/-- **C6.** `analyzeTrends` reports `dawnPhenomenon = true` exactly when,
after grouping readings by hour of day and taking per-hour means (a missing
hour's mean taken as `0`, which is what `hourlyAverage` computes), either
`mean(hour 8) - mean(hour 4) > 20` or `mean(hour 6) - mean(hour 4) > 15`;
for instance hour means `90` at hour `4`, `95` at hour `6` and `115` at
hour `8` yield `true`. -/
theorem dawn_phenomenon_threshold (sqrt : ℚ → ℚ) (cfg : LibreLinkConfig)
    (readings : List GlucoseReading) (p : Period) (hne : readings ≠ []) :
    (∀ t, analyzeTrends sqrt cfg readings p = .ok t →
      (t.dawnPhenomenon = true ↔
        (20 < hourlyAverage readings 8 - hourlyAverage readings 4 ∨
         15 < hourlyAverage readings 6 - hourlyAverage readings 4))) ∧
    hourlyAverage [mkReading 90 4, mkReading 95 6, mkReading 115 8] 4 = 90 ∧
    hourlyAverage [mkReading 90 4, mkReading 95 6, mkReading 115 8] 6 = 95 ∧
    hourlyAverage [mkReading 90 4, mkReading 95 6, mkReading 115 8] 8 = 115 ∧
    detectDawnPhenomenon [mkReading 90 4, mkReading 95 6, mkReading 115 8] = true := by
  refine ⟨?_, ?_, ?_, ?_, ?_⟩
  · intro t ht
    rw [analyzeTrends_of_ne_nil sqrt cfg readings hne p] at ht
    have hrec : trendRecord sqrt cfg readings = t := Except.ok.inj ht
    subst hrec
    simp [trendRecord, detectDawnPhenomenon]
  · simp [hourlyAverage, hourValues, values, meanOf, mkReading]
  · simp [hourlyAverage, hourValues, values, meanOf, mkReading]
  · simp [hourlyAverage, hourValues, values, meanOf, mkReading]
  · simp [detectDawnPhenomenon, hourlyAverage, hourValues, values, meanOf, mkReading]
    norm_num

/-- **C6 witness**: the threshold characterisation applied to the concrete
three-reading example (hour means `90`, `95`, `115`), where the detection
fires because `115 - 90 = 25 > 20`. -/
theorem dawn_phenomenon_threshold_witness :
    ([mkReading 90 4, mkReading 95 6, mkReading 115 8] : List GlucoseReading) ≠ [] ∧
    ((trendRecord (fun _ => 0) cfg70
        [mkReading 90 4, mkReading 95 6, mkReading 115 8]).dawnPhenomenon = true ↔
      (20 < hourlyAverage [mkReading 90 4, mkReading 95 6, mkReading 115 8] 8 -
            hourlyAverage [mkReading 90 4, mkReading 95 6, mkReading 115 8] 4 ∨
       15 < hourlyAverage [mkReading 90 4, mkReading 95 6, mkReading 115 8] 6 -
            hourlyAverage [mkReading 90 4, mkReading 95 6, mkReading 115 8] 4)) :=
  ⟨by simp,
    (dawn_phenomenon_threshold (fun _ => 0) cfg70
      [mkReading 90 4, mkReading 95 6, mkReading 115 8] Period.weekly (by simp)).1 _
      (analyzeTrends_of_ne_nil (fun _ => 0) cfg70
        [mkReading 90 4, mkReading 95 6, mkReading 115 8] (by simp) Period.weekly)⟩

/-- The loop of `detectHyperglycemicPeriods` (with the trailing end-of-input
check) counts, starting from `p` prior periods and an open run of length `c`,
exactly the maximal `true`-runs of length at least `6`. -/
lemma hyper_fold_eq (high : ℚ) (readings : List GlucoseReading) : ∀ p c : ℕ,
    (if (readings.foldl (hyperStep high) (p, c)).2 ≥ 6
      then (readings.foldl (hyperStep high) (p, c)).1 + 1
      else (readings.foldl (hyperStep high) (p, c)).1) =
    p + (runLengths (readings.map (fun r => decide (high < r.value))) c).countP
          (fun n => decide (6 ≤ n)) := by
  induction readings with
  | nil =>
    intro p c
    simp only [List.foldl_nil, List.map_nil, runLengths, List.countP_cons,
      List.countP_nil]
    by_cases h : 6 ≤ c <;> simp [h] <;> omega
  | cons r rest ih =>
    intro p c
    by_cases hv : high < r.value
    · have hstep : hyperStep high (p, c) r = (p, c + 1) := by
        simp [hyperStep, hv]
      rw [List.foldl_cons, hstep, List.map_cons]
      have hflag : decide (high < r.value) = true := decide_eq_true hv
      rw [hflag, runLengths]
      exact ih p (c + 1)
    · have hstep : hyperStep high (p, c) r = (if c ≥ 6 then p + 1 else p, 0) := by
        simp [hyperStep, hv]
      rw [List.foldl_cons, hstep, List.map_cons]
      have hflag : decide (high < r.value) = false := decide_eq_false hv
      rw [hflag, runLengths, List.countP_cons]
      rw [ih (if c ≥ 6 then p + 1 else p) 0]
      by_cases h6 : 6 ≤ c <;> simp [h6] <;> omega

/-- **C7.** The hyperglycemic-period count equals the number of maximal runs
of consecutive above-range readings of length at least `6` (`runLengths _ 0`
lists the length of every maximal run of `true` flags, including the run
still open at the end of the sequence); in particular `6` consecutive
above-range readings followed by one in-range reading count as `1` period,
and `5` consecutive above-range readings count as `0`. -/
theorem hyperglycemic_periods_count_long_runs (cfg : LibreLinkConfig)
    (readings : List GlucoseReading) :
    detectHyperglycemicPeriods cfg readings =
      (runLengths (aboveFlags cfg readings) 0).countP (fun n => decide (6 ≤ n)) ∧
    detectHyperglycemicPeriods cfg70
      [mkReading 200 0, mkReading 200 1, mkReading 200 2, mkReading 200 3,
       mkReading 200 4, mkReading 200 5, mkReading 100 6] = 1 ∧
    detectHyperglycemicPeriods cfg70
      [mkReading 200 0, mkReading 200 1, mkReading 200 2, mkReading 200 3,
       mkReading 200 4] = 0 := by
  refine ⟨?_, ?_, ?_⟩
  · have h := hyper_fold_eq cfg.ranges.target_high readings 0 0
    simpa [detectHyperglycemicPeriods, aboveFlags] using h
  · simp [detectHyperglycemicPeriods, hyperStep, cfg70, mkReading]
    norm_num
  · simp [detectHyperglycemicPeriods, hyperStep, cfg70, mkReading]
    norm_num

/-- **C8.** For every non-empty readings list (and every `sqrt` model),
`generateInsights` returns exactly three strings in the fixed order
time-in-range, variability, GMI, where the time-in-range sentence is chosen
by the buckets `≥ 70` (excellent), `≥ 50` (good), else needs improvement; the
variability sentence by coefficient of variation `≤ 33` (low), `≤ 36`
(moderate), else high; and the GMI sentence by `gmi < 7.0` (excellent),
`< 8.0` (good), else needs improvement — all read off the returned stats. -/
theorem insights_fixed_order_buckets (sqrt : ℚ → ℚ) (cfg : LibreLinkConfig)
    (readings : List GlucoseReading) (hne : readings ≠ []) :
    ∀ s, calculateGlucoseStats sqrt cfg readings = .ok s →
      generateInsights sqrt cfg readings = .ok
        [(if s.timeInRange ≥ 70 then
            "Excellent glucose control - time in range above 70%"
          else if s.timeInRange ≥ 50 then
            "Good glucose control - consider optimizing to reach 70% time in range"
          else
            "Glucose control needs improvement - focus on reducing time above/below range"),
         (if s.coefficientOfVariation ≤ 33 then
            "Low glucose variability - excellent stability"
          else if s.coefficientOfVariation ≤ 36 then
            "Moderate glucose variability - room for improvement"
          else
            "High glucose variability - consider strategies to improve stability"),
         (if s.gmi < 7 then
            "GMI indicates excellent glucose management"
          else if s.gmi < 8 then
            "GMI indicates good glucose management with room for improvement"
          else
            "GMI suggests glucose management needs significant improvement")] := by
  intro s hs
  unfold generateInsights
  rw [hs, analyzeTrends_of_ne_nil sqrt cfg readings hne Period.weekly]

/-- **C8 witness**: the three sentences on a single in-range reading (time in
range `100`, coefficient of variation `0`, GMI `5.7`). -/
theorem insights_fixed_order_buckets_witness :
    ([mkReading 100 12] : List GlucoseReading) ≠ [] ∧
    generateInsights (fun _ => 0) cfg70 [mkReading 100 12] = .ok
      ["Excellent glucose control - time in range above 70%",
       "Low glucose variability - excellent stability",
       "GMI indicates excellent glucose management"] := by
  have hv : varianceOf [mkReading 100 12] = 0 := by
    simp [varianceOf, popVariance, meanOf, values, mkReading]
  have hs : calculateGlucoseStats (fun _ => 0) cfg70 [mkReading 100 12] = .ok
      { average := 100, gmi := 5.7, timeInRange := 100, timeBelowRange := 0,
        timeAboveRange := 0, standardDeviation := 0, coefficientOfVariation := 0 } := by
    simp only [calculateGlucoseStats, statsRecord, standardDeviationOf,
      coefficientOfVariationOf, hv]
    simp [averageOf, gmiOf, meanOf, values, mkReading, inRangeCount,
          belowRangeCount, aboveRangeCount, cfg70, round2]
    norm_num
  refine ⟨by simp, ?_⟩
  have h := insights_fixed_order_buckets (fun _ => 0) cfg70 [mkReading 100 12]
    (by simp) _ hs
  rw [h]
  norm_num

/-- **C9.** `calculateGlucoseStats` is deterministic and free of hidden
state: two calls on the same input are equal, and the result depends only on
the sequence of glucose values — readings that agree value-for-value (whatever
their timestamps, trend arrows, `isHigh`/`isLow` flags or colors) produce
identical stats.  (Mutation-freedom is inherent to the embedding: the source
only maps, filters and reduces over the borrowed array.) -/
theorem stats_deterministic_value_extensional (sqrt : ℚ → ℚ)
    (cfg : LibreLinkConfig) (r1 r2 : List GlucoseReading) :
    calculateGlucoseStats sqrt cfg r1 = calculateGlucoseStats sqrt cfg r1 ∧
    (values r1 = values r2 →
      calculateGlucoseStats sqrt cfg r1 = calculateGlucoseStats sqrt cfg r2) := by
  refine ⟨rfl, ?_⟩
  intro hv
  have hlen : r1.length = r2.length := by
    have h := congrArg List.length hv
    simpa [values] using h
  by_cases h1 : r1 = []
  · subst h1
    have h2 : r2 = [] := by
      have h : values r2 = [] := by rw [← hv]; rfl
      simpa [values] using h
    subst h2; rfl
  · have h2 : r2 ≠ [] := by
      intro h; subst h
      apply h1
      have h : values r1 = [] := by rw [hv]; rfl
      simpa [values] using h
    rw [calculateGlucoseStats_of_ne_nil sqrt cfg r1 h1,
        calculateGlucoseStats_of_ne_nil sqrt cfg r2 h2]
    have ein : ∀ l : List GlucoseReading, inRangeCount cfg l =
        (values l).countP
          (fun v => decide (cfg.ranges.target_low ≤ v ∧ v ≤ cfg.ranges.target_high)) := by
      intro l
      simp [inRangeCount, values, ← List.countP_eq_length_filter, List.countP_map]
      rfl
    have ebelow : ∀ l : List GlucoseReading, belowRangeCount cfg l =
        (values l).countP (fun v => decide (v < cfg.ranges.target_low)) := by
      intro l
      simp [belowRangeCount, values, ← List.countP_eq_length_filter, List.countP_map]
      rfl
    have eabove : ∀ l : List GlucoseReading, aboveRangeCount cfg l =
        (values l).countP (fun v => decide (cfg.ranges.target_high < v)) := by
      intro l
      simp [aboveRangeCount, values, ← List.countP_eq_length_filter, List.countP_map]
      rfl
    simp only [statsRecord, averageOf, varianceOf, standardDeviationOf,
      coefficientOfVariationOf, gmiOf, ein, ebelow, eabove]
    rw [hv, hlen]

/-- **C9 witness**: two singleton lists with the same value but different
hours, trend arrows and flags yield identical stats objects. -/
theorem stats_deterministic_witness :
    values [mkReading 100 3] =
      values [{ value := 100, timestamp := ⟨15⟩, trend := TrendType.singleUp,
                isHigh := true, isLow := false, color := "green" }] ∧
    calculateGlucoseStats (fun _ => 0) cfg70 [mkReading 100 3] =
      calculateGlucoseStats (fun _ => 0) cfg70
        [{ value := 100, timestamp := ⟨15⟩, trend := TrendType.singleUp,
           isHigh := true, isLow := false, color := "green" }] :=
  ⟨rfl,
    (stats_deterministic_value_extensional (fun _ => 0) cfg70 [mkReading 100 3]
      [{ value := 100, timestamp := ⟨15⟩, trend := TrendType.singleUp,
         isHigh := true, isLow := false, color := "green" }]).2 rfl⟩

/-- `Nat.toDigitsCore` never shortens its accumulator. -/
lemma toDigitsCore_length_mono (b : ℕ) : ∀ (fuel n : ℕ) (ds : List Char),
    ds.length ≤ (Nat.toDigitsCore b fuel n ds).length := by
  intro fuel
  induction fuel with
  | zero => intro n ds; simp [Nat.toDigitsCore]
  | succ f ih =>
    intro n ds
    simp only [Nat.toDigitsCore]
    split
    · simp
    · exact le_trans (by simp) (ih (n / b) (Nat.digitChar (n % b) :: ds))

/-- The decimal rendering of a natural number has at least one character. -/
lemma one_le_toString_length (n : ℕ) : 1 ≤ (toString n).length := by
  show 1 ≤ (Nat.repr n).length
  rw [Nat.repr, Nat.toDigits, List.length_asString]
  simp only [Nat.toDigitsCore]
  split
  · simp
  · exact le_trans (by simp) (toDigitsCore_length_mono 10 n (n / 10) _)

/-- The interpolated hypoglycemia pattern string is never the
good-postprandial-control string (a digit makes it strictly longer). -/
lemma good_ne_hypo_string (n : ℕ) :
    toString n ++ " hypoglycemic episode(s) detected" ≠
      "Good postprandial glucose control" := by
  intro h
  have hl := congrArg String.length h
  rw [String.length_append] at hl
  have h1 : (" hypoglycemic episode(s) detected" : String).length = 33 := by decide
  have h2 : ("Good postprandial glucose control" : String).length = 33 := by decide
  have h3 := one_le_toString_length n
  omega

/-- The interpolated hyperglycemia pattern string is never the
good-postprandial-control string. -/
lemma good_ne_hyper_string (n : ℕ) :
    toString n ++ " extended hyperglycemic period(s) detected" ≠
      "Good postprandial glucose control" := by
  intro h
  have hl := congrArg String.length h
  rw [String.length_append] at hl
  have h1 : (" extended hyperglycemic period(s) detected" : String).length = 42 := by
    decide
  have h2 : ("Good postprandial glucose control" : String).length = 33 := by decide
  have h3 := one_le_toString_length n
  omega

/-- Every spike contribution is `curr - prev` with `curr > prev + 30`, hence
strictly greater than `30`. -/
lemma spikes_mem_gt (l : List ℚ) : ∀ x ∈ spikes l, 30 < x := by
  induction l with
  | nil => intro x hx; simp [spikes] at hx
  | cons a t ih =>
    cases t with
    | nil => intro x hx; simp [spikes] at hx
    | cons b t2 =>
      cases t2 with
      | nil => intro x hx; simp [spikes] at hx
      | cons c rest =>
        intro x hx
        have hx' : x ∈ (if b > a + 30 ∧ b > c + 15 then [b - a] else []) ++
            spikes (b :: c :: rest) := hx
        rcases List.mem_append.mp hx' with h | h
        · split_ifs at h with hcond
          · have hxe : x = b - a := List.mem_singleton.mp h
            subst hxe; linarith [hcond.1]
          · simp at h
        · exact ih x h

/-- A non-empty list all of whose elements exceed `30` has sum above
`30 * length`. -/
lemma sum_gt_of_all_gt (l : List ℚ) (hne : l ≠ []) (hall : ∀ x ∈ l, 30 < x) :
    30 * (l.length : ℚ) < l.sum := by
  induction l with
  | nil => exact absurd rfl hne
  | cons a t ih =>
    have ha := hall a (List.mem_cons_self a t)
    rcases eq_or_ne t [] with ht | ht
    · subst ht; simp; linarith
    · have hrec := ih ht (fun x hx => hall x (List.mem_cons_of_mem a hx))
      simp only [List.sum_cons, List.length_cons]
      push_cast
      linarith

/-- The meal response is either `0` with no spikes, or the mean of the spike
contributions, which then exceeds `30`. -/
lemma mealResponse_dichotomy (readings : List GlucoseReading) :
    (spikes (values readings) = [] ∧ calculateMealResponse readings = 0) ∨
    (spikes (values readings) ≠ [] ∧ 30 < calculateMealResponse readings) := by
  rcases eq_or_ne (spikes (values readings)) [] with h | h
  · exact Or.inl ⟨h, by simp [calculateMealResponse, h]⟩
  · refine Or.inr ⟨h, ?_⟩
    have hall := spikes_mem_gt (values readings)
    have hsum := sum_gt_of_all_gt (spikes (values readings)) h hall
    have hlen : 0 < ((spikes (values readings)).length : ℚ) := by
      have hp : 0 < (spikes (values readings)).length := List.length_pos.mpr h
      exact_mod_cast hp
    have hmr : calculateMealResponse readings =
        (spikes (values readings)).sum / ((spikes (values readings)).length : ℚ) := by
      simp [calculateMealResponse, h]
    rw [hmr, lt_div_iff hlen]
    linarith

/-- **C10.** The meal-response value computed by `analyzeTrends` is either
exactly `0` (no spike found) or strictly greater than `30`, because every
recorded spike contributes `curr - prev > 30` and the result is the mean of
those contributions; consequently the interval `(0, 20)` is unreachable and
the `"Good postprandial glucose control"` pattern string appears in the
report if and only if no spike was detected. -/
theorem meal_response_gap_and_good_control (sqrt : ℚ → ℚ)
    (cfg : LibreLinkConfig) (readings : List GlucoseReading) (p : Period) :
    (calculateMealResponse readings = 0 ∨ 30 < calculateMealResponse readings) ∧
    ¬(0 < calculateMealResponse readings ∧ calculateMealResponse readings < 20) ∧
    (readings ≠ [] → ∀ t, analyzeTrends sqrt cfg readings p = .ok t →
      ("Good postprandial glucose control" ∈ t.patterns ↔
        spikes (values readings) = [])) := by
  rcases mealResponse_dichotomy readings with ⟨hsp, hmr⟩ | ⟨hsp, hmr⟩
  · refine ⟨Or.inl hmr, ?_, ?_⟩
    · rintro ⟨h1, -⟩; rw [hmr] at h1; exact lt_irrefl 0 h1
    · intro hne t ht
      rw [analyzeTrends_of_ne_nil sqrt cfg readings hne p] at ht
      have hrec : trendRecord sqrt cfg readings = t := Except.ok.inj ht
      subst hrec
      simp only [trendRecord]
      refine ⟨fun _ => hsp, fun _ => ?_⟩
      rw [hmr]
      norm_num
  · have hne50 : ¬(calculateMealResponse readings < 20) := by linarith
    refine ⟨Or.inr hmr, ?_, ?_⟩
    · rintro ⟨-, h2⟩; exact hne50 h2
    · intro hne t ht
      rw [analyzeTrends_of_ne_nil sqrt cfg readings hne p] at ht
      have hrec : trendRecord sqrt cfg readings = t := Except.ok.inj ht
      subst hrec
      simp only [trendRecord]
      constructor
      · intro hmem
        exfalso
        simp only [List.mem_append] at hmem
        rcases hmem with ((((h | h) | h) | h) | h)
        · split_ifs at h
          · exact absurd (List.mem_singleton.mp h) (by decide)
          · simp at h
        · split_ifs at h with h50
          · exact absurd (List.mem_singleton.mp h) (by decide)
          · simp at h
        · split_ifs at h
          · exact absurd (List.mem_singleton.mp h) (by decide)
          · exact absurd (List.mem_singleton.mp h) (by decide)
          · simp at h
        · split_ifs at h
          · exact good_ne_hypo_string _ (List.mem_singleton.mp h).symm
          · simp at h
        · split_ifs at h
          · exact good_ne_hyper_string _ (List.mem_singleton.mp h).symm
          · simp at h
      · intro h; exact absurd h hsp

/-- **C10 witness**: a single reading has no three-reading window, hence no
spike, meal response `0`, and the good-control string in the pattern list. -/
theorem meal_response_gap_witness :
    ([mkReading 100 12] : List GlucoseReading) ≠ [] ∧
    (calculateMealResponse [mkReading 100 12] = 0 ∨
      30 < calculateMealResponse [mkReading 100 12]) ∧
    ("Good postprandial glucose control" ∈
        (trendRecord (fun _ => 0) cfg70 [mkReading 100 12]).patterns ↔
      spikes (values [mkReading 100 12]) = []) :=
  ⟨by simp,
   (meal_response_gap_and_good_control (fun _ => 0) cfg70 [mkReading 100 12]
     Period.weekly).1,
   (meal_response_gap_and_good_control (fun _ => 0) cfg70 [mkReading 100 12]
     Period.weekly).2.2 (by simp) _
     (analyzeTrends_of_ne_nil (fun _ => 0) cfg70 [mkReading 100 12] (by simp)
       Period.weekly)⟩

end LibreLink
